import Mathlib

/-!
Verification of the ArgumentParsing repository: a declarative attribute to
command-line-flag binding engine.  The Python sources are shallowly embedded
below; stateful class methods become explicit state passing over a descriptor
list, Python exceptions become `Except` / `Option String` error channels, and
the external `argparse` library is modelled at the boundary the specification
assigns to it.
-/

/-- Shallow embedding of the Python types that the engine manipulates as
`declaredType` / `elementType`: booleans, strings, integers and the typing
module's single-parameter generic `List[T]`. -/
inductive PyType where
  | bool
  | str
  | int
  | listOf (t : PyType)
deriving DecidableEq, Repr

/-- Shallow embedding of Python runtime values flowing through descriptors:
`pynone` stands for Python `None`. -/
inductive PyValue where
  | pynone
  | pystr (s : String)
  | pybool (b : Bool)
  | pyint (n : Int)
  | pylist (xs : List PyValue)
deriving Repr

/-- Python `value is None` test used by the engine on defaults. -/
def PyValue.is_none : PyValue → Bool
  | PyValue.pynone => true
  | _ => false

/-- Python truthiness-aware `x or y` on optional strings: `None` and the empty
string are falsy, so they fall through to the second operand. -/
def pyOrStr : Option String → Option String → Option String
  | some s, y => if s = "" then y else some s
  | none, y => y

/-- Python `__name__` of the types in the model (`List[str].__name__ = 'List'`
under the typing module used by the source). -/
def pyTypeName : PyType → String
  | PyType.bool => "bool"
  | PyType.str => "str"
  | PyType.int => "int"
  | PyType.listOf _ => "List"

/-- Rendering of an `Option String` name inside a Python f-string: `None`
prints as the text `None`. -/
def nameOrNone : Option String → String
  | some s => s
  | none => "None"

/-- Embedding of `argument.py`'s `Argument` descriptor state.  Field defaults
mirror `Argument.__init__` (every metadata slot starts at `None`/`False`);
the Python `fget`/`fset` accessor slots are tracked as presence booleans and
a `doc` slot holds `self.__doc__`. -/
structure Argument where
  help : Option String := none
  default : PyValue := PyValue.pynone
  value : PyValue := PyValue.pynone
  nargs : Option String := none
  const : PyValue := PyValue.pynone
  choices : Option (List String) := none
  required : Bool := false
  name : Option String := none
  overridden_type : Option PyType := none
  type : Option PyType := none
  metavar : Option String := none
  overridden_action : Option String := none
  action : Option String := none
  has_initializer : Bool := false
  fget : Bool := false
  fset : Bool := false
  doc : Option String := none
deriving Repr

/-- Embedding of a read accessor handed to `Argument.getter`: its
`__name__`, its `__doc__`, and its annotated return type if any. -/
structure Getter where
  name : String
  doc : Option String
  annotation : Option PyType
deriving Repr

/-- The class attribute `Argument._default_action = 'store'`. -/
def Argument.default_action : String := "store"

/-- The class attribute `Argument._default_type = str`. -/
def Argument.default_type : PyType := PyType.str

/-- Embedding of `issubclass(value, List)` on the model's syntactic types. -/
def Argument.is_list_type : PyType → Bool
  | PyType.listOf _ => true
  | _ => false

/-- Embedding of `issubclass(value, bool)` on the model's syntactic types. -/
def Argument.is_bool_type : PyType → Bool
  | PyType.bool => true
  | _ => false

/-- Embedding of `Argument._get_type_from_annotation`: the annotated return
type when the accessor has one, else the default type `str`. -/
def Argument.get_type_from_annotation (g : Getter) : PyType :=
  match g.annotation with
  | some t => t
  | none => Argument.default_type

/-- Embedding of `Argument._get_first_generic_type`: the first entry of the
generic's `__args__` (only reached on `List[T]`, where it is `T`). -/
def Argument.get_first_generic_type : PyType → PyType
  | PyType.listOf t => t
  | t => t

/-- Embedding of `Argument._resolve_generic_type`: unwraps `List[T]` to `T`
and leaves every other type unchanged. -/
def Argument.resolve_generic_type (value : PyType) : PyType :=
  if Argument.is_list_type value then Argument.get_first_generic_type value else value

/-- Embedding of `Argument._get_type`: the overridden type if given (types are
always truthy in Python, so `or` takes the override whenever present), else
the annotated return type, with the generic container then resolved away. -/
def Argument.get_type (self : Argument) (g : Getter) : PyType :=
  let return_type :=
    match self.overridden_type with
    | some t => t
    | none => Argument.get_type_from_annotation g
  Argument.resolve_generic_type return_type

/-- Embedding of `Argument._get_action_type`: starts from the default action
`'store'`, switches to `'store_switch'` for bool subclasses and then to
`'store_list'` for list subclasses. -/
def Argument.get_action_type (value : PyType) : String :=
  let action := Argument.default_action
  let action := if Argument.is_bool_type value then "store_switch" else action
  let action := if Argument.is_list_type value then "store_list" else action
  action

/-- The message of the `AttributeError` Python raises when `doc.strip()` is
evaluated on `None` inside `Argument._get_doc`. -/
def attribute_error_strip_none : String :=
  "AttributeError: \x27NoneType\x27 object has no attribute \x27strip\x27"

/-- Embedding of `Argument._get_doc`: `getter.__doc__ or self.help`, then
`strip()` — which raises when both are missing. -/
def Argument.get_doc (self : Argument) (g : Getter) : Except String String :=
  match pyOrStr g.doc self.help with
  | none => Except.error attribute_error_strip_none
  | some d => Except.ok d.trim

/-- Embedding of `Argument.getter` (the attach step): records the accessor,
finalizes `name`, resolves `type`, derives `metavar` from the resolved type's
name when not overridden, derives `action` from the resolved type, then
derives the docstring-based help (raising when no documentation exists). -/
def Argument.getter (self : Argument) (g : Getter) : Except String Argument :=
  let a := { self with fget := true, name := some g.name }
  let ty := Argument.get_type a g
  let a := { a with type := some ty }
  let a := { a with metavar := pyOrStr a.metavar (some (pyTypeName ty)) }
  let a := { a with action := some (Argument.get_action_type ty) }
  match Argument.get_doc a g with
  | Except.error m => Except.error m
  | Except.ok d =>
    let a := { a with doc := some d }
    Except.ok { a with help := pyOrStr a.help (some d) }

/-- Embedding of `_iterables.flatten`: joins the items with the delimiter
after discarding items equal to the empty string. -/
def flatten (items : List String) (delimiter : String) : String :=
  String.intercalate delimiter (items.filter (fun s => s ≠ ""))

/-- Embedding of `os.linesep` on the POSIX platform the repository targets. -/
def os_linesep : String := "\x0a"

/-- Embedding of `_exceptions.ExceptionBase`: a message plus an optional
chained inner exception. -/
inductive ExcChain where
  | mk (message : String) (inner : Option ExcChain)
deriving Repr

/-- The `message` property of `ExceptionBase`. -/
def ExcChain.message : ExcChain → String
  | ExcChain.mk m _ => m

/-- The `inner_exception` property of `ExceptionBase` (the
`_get_inner_exception` un-wrapper). -/
def ExcChain.inner_exception : ExcChain → Option ExcChain
  | ExcChain.mk _ i => i

/-- Python `str(error)` on a single-argument exception: its message. -/
def ExcChain.toStr (e : ExcChain) : String := e.message

/-- Embedding of `ExceptionBase.unwrap`, i.e. `_iterables.unwrap` applied to
the `_get_inner_exception` un-wrapper: the chain as a list, deepest cause
first, the error itself last. -/
def ExcChain.unwrap : ExcChain → List ExcChain
  | ExcChain.mk m none => [ExcChain.mk m none]
  | ExcChain.mk m (some e) => ExcChain.unwrap e ++ [ExcChain.mk m (some e)]

/-- Embedding of `ExceptionBase.flatten`: the `str` form of every unwrapped
error joined by `os.linesep` through `_iterables.flatten`. -/
def ExcChain.flattenMsg (e : ExcChain) : String :=
  flatten (e.unwrap.map ExcChain.toStr) os_linesep

/-- Embedding of `argument_parse_error.ArgumentParseError` without a chained
cause: the stored message is the input prefixed by `Argument error: `. -/
def argumentParseError (message : String) : ExcChain :=
  ExcChain.mk ("Argument error: " ++ message) none

/-- Embedding of the overridden `PropertyArgumentParser.error`: instead of the
library's print-usage-and-exit behaviour it raises `ArgumentParseError` built
from the generated message. -/
def PropertyArgumentParser.error (message : String) : ExcChain :=
  argumentParseError message

/-- Embedding of a `StrEnum` member: its declared name and string value. -/
structure EnumMember where
  name : String
  value : String
deriving DecidableEq, Repr

/-- Embedding of `StrEnum.has_member`: membership of the token among the
declared member names. -/
def StrEnum.has_member (members : List EnumMember) (member : String) : Bool :=
  (members.map (fun mb => mb.name)).contains member

/-- The `KeyError` message `StrEnum.assert_member_is_defined` formats: it
quotes the token and the enum name and joins the member names (in declaration
order) with `, ` through `_iterables.flatten`. -/
def StrEnum.key_error_message (typeName : String) (members : List EnumMember)
    (member : String) : String :=
  "The member \x27" ++ member ++ "\x27 is not a valid value for \x27" ++ typeName ++
    "\x27, expected members are: \x27" ++
    flatten (members.map (fun mb => mb.name)) ", " ++ "\x27"

/-- Embedding of `StrEnum.assert_member_is_defined`: `none` when the token is
declared, otherwise the raised `KeyError` message. -/
def StrEnum.assert_member_is_defined (typeName : String) (members : List EnumMember)
    (member : String) : Option String :=
  if StrEnum.has_member members member then none
  else some (StrEnum.key_error_message typeName members member)

/-- Embedding of `StrEnum.from_name`: assert the name is declared, then look
the member up (`cls[name]`, whose own `KeyError` is the fallback branch). -/
def StrEnum.from_name (typeName : String) (members : List EnumMember)
    (name : String) : Except String EnumMember :=
  match StrEnum.assert_member_is_defined typeName members name with
  | some e => Except.error e
  | none =>
    match members.find? (fun mb => mb.name == name) with
    | some m => Except.ok m
    | none => Except.error name

/-- Embedding of an `inspect.Parameter` of the owning type's `__init__`
(the implicit class reference already removed): its name and whether it
carries a default (`default is not inspect.Parameter.empty`). -/
structure Param where
  name : String
  hasDefault : Bool
deriving DecidableEq, Repr

/-- Embedding of `Arguments._has_required_initializer`: a parameter is a
required initializer when it has no default. -/
def Arguments.has_required_initializer (p : Param) : Bool :=
  !p.hasDefault

/-- Embedding of `Arguments._get_required_initialization_params`: the
constructor parameters lacking a default. -/
def Arguments.get_required_initialization_params (params : List Param) : List Param :=
  params.filter (fun p => Arguments.has_required_initializer p)

/-- The message of the `AttributeError` raised by
`Arguments._assert_argument_can_be_set`. -/
def Arguments.assert_error_message (name : Option String) : String :=
  nameOrNone name ++
    " Argument must have a setter or a non-default initialization arg defined in its __init__ method."

/-- Embedding of `Arguments._assert_argument_can_be_set`: `none` when the
descriptor has a setter or is required, otherwise the raised message. -/
def Arguments.assert_argument_can_be_set (a : Argument) : Option String :=
  if a.fset || a.required then none
  else some (Arguments.assert_error_message a.name)

/-- The flag mutation of `Arguments._set_required_arg`: marks the descriptor
as initializer-bound and recomputes `required` from the parameter's
defaultlessness and the descriptor's own default being `None`. -/
def Arguments.set_required_flags (a : Argument) (p : Param) : Argument :=
  { a with has_initializer := true,
           required := Arguments.has_required_initializer p && a.default.is_none }

/-- Embedding of `Arguments._set_required_arg`: mutate the flags, then run the
can-be-set assertion on the mutated descriptor. -/
def Arguments.set_required_arg (a : Argument) (p : Param) : Argument × Option String :=
  let a1 := Arguments.set_required_flags a p
  (a1, Arguments.assert_argument_can_be_set a1)

/-- The inner loop of `Arguments._mark_required_args` for one descriptor:
walk the parameter list, applying `_set_required_arg` at every name match;
a raised assertion aborts the walk, leaving the descriptor as mutated. -/
def Arguments.mark_arg (a : Argument) : List Param → Argument × Option String
  | [] => (a, none)
  | p :: ps =>
    if a.name = some p.name then
      let r := Arguments.set_required_arg a p
      match r.2 with
      | some m => (r.1, some m)
      | none => Arguments.mark_arg r.1 ps
    else Arguments.mark_arg a ps

/-- Embedding of `Arguments._mark_required_args`: descriptors are processed
in order and mutated in place; a raised assertion aborts the whole loop, so
descriptors after the failing one keep their previous state. -/
def Arguments.mark_required_args : List Argument → List Param → List Argument × Option String
  | [], _ => ([], none)
  | a :: as, ps =>
    match Arguments.mark_arg a ps with
    | (a1, some m) => (a1 :: as, some m)
    | (a1, none) =>
      let r := Arguments.mark_required_args as ps
      (a1 :: r.1, r.2)

/-- Embedding of `Arguments._check_required_args`: reconcile the descriptors
against the constructor parameters lacking a default. -/
def Arguments.check_required_args (args : List Argument) (params : List Param) :
    List Argument × Option String :=
  Arguments.mark_required_args args (Arguments.get_required_initialization_params params)

/-- Embedding of the flag registration `PropertyArgumentParser.add_argument_details`
passes to `argparse.add_argument`: the `--`-prefixed flag plus the
descriptor's action, default, type, metavar, required flag and help. -/
structure Registration where
  flag : String
  name : String
  action : String
  default : PyValue
  type : PyType
  metavar : Option String
  required : Bool
  help : Option String
deriving Repr

/-- The class attribute `PropertyArgumentParser._flag = '--'`. -/
def PropertyArgumentParser.flag : String := "--"

/-- Embedding of `PropertyArgumentParser.add_argument_details`: the flag
registration derived from one descriptor (an unset action means the library
default `'store'`; an unset type means the identity conversion, modelled as
`str`). -/
def PropertyArgumentParser.add_argument_details (arg : Argument) : Registration :=
  { flag := PropertyArgumentParser.flag ++ nameOrNone arg.name
    name := nameOrNone arg.name
    action := arg.action.getD "store"
    default := arg.default
    type := arg.type.getD Argument.default_type
    metavar := arg.metavar
    required := arg.required
    help := arg.help }

/-- Embedding of `Arguments._add_arguments`: registers every descriptor on
the parser, in order. -/
def Arguments.add_arguments (regs : List Registration) (args : List Argument) :
    List Registration :=
  args.foldl (fun acc a => acc ++ [PropertyArgumentParser.add_argument_details a]) regs

/-- Presence of a flag token in the process input. -/
def hasFlag (tokens : List String) (flag : String) : Bool :=
  tokens.contains flag

/-- The value token following the first occurrence of a flag. -/
def firstFlagValue (flag : String) : List String → Option String
  | [] => none
  | t :: rest => if t = flag then rest.head? else firstFlagValue flag rest

/-- The value tokens following every occurrence of a repeatable flag, in
order of appearance. -/
def collectFlagValues (flag : String) : List String → List String
  | [] => []
  | t :: rest =>
    if t = flag then
      match rest with
      | [] => []
      | v :: rest2 => v :: collectFlagValues flag rest2
    else collectFlagValues flag rest

/-- Modelled from the spec: the external flag-parsing library's per-value
type conversion (`scalar action: exactly one value of the resolved type`);
a malformed value is an internal parse failure. -/
def convertValue (t : PyType) (s : String) : Except String PyValue :=
  match t with
  | PyType.int =>
    match s.toInt? with
    | some n => Except.ok (PyValue.pyint n)
    | none => Except.error ("argument: invalid int value: \x27" ++ s ++ "\x27")
  | PyType.bool => Except.ok (PyValue.pybool (s ≠ ""))
  | _ => Except.ok (PyValue.pystr s)

/-- Conversion of a list of collected value tokens, failing on the first
malformed one. -/
def convertAll (t : PyType) : List String → Except String (List PyValue)
  | [] => Except.ok []
  | s :: rest =>
    match convertValue t s with
    | Except.error m => Except.error m
    | Except.ok v =>
      match convertAll t rest with
      | Except.error m => Except.error m
      | Except.ok vs => Except.ok (v :: vs)

/-- Modelled from the spec: the value the external library binds for one
registration — switch: present means `true`, absent means the default;
accumulate: every occurrence's value appended in order; scalar: the single
value of the resolved type, or the default when the flag is absent.
Unrecognized tokens are ignored rather than reported. -/
def regValue (r : Registration) (tokens : List String) : Except String PyValue :=
  if r.action = "store_switch" then
    Except.ok (if hasFlag tokens r.flag then PyValue.pybool true else r.default)
  else if r.action = "store_list" then
    match convertAll r.type (collectFlagValues r.flag tokens) with
    | Except.error m => Except.error m
    | Except.ok vs => Except.ok (PyValue.pylist vs)
  else
    match firstFlagValue r.flag tokens with
    | some s => convertValue r.type s
    | none => Except.ok r.default

/-- The name-to-value binding produced for all registrations, failing on the
first internal conversion failure. -/
def parseRegValues : List Registration → List String → Except String (List (String × PyValue))
  | [], _ => Except.ok []
  | r :: rs, tokens =>
    match regValue r tokens with
    | Except.error m => Except.error m
    | Except.ok v =>
      match parseRegValues rs tokens with
      | Except.error m => Except.error m
      | Except.ok vs => Except.ok ((r.name, v) :: vs)

/-- Modelled from the spec: `parse_known_args` of the wrapped library.  Every
internal failure — a malformed value or a required flag absent from the
input — is funnelled through the adapter's overridden `error`, which raises
the domain `ArgumentParseError` instead of terminating the process. -/
def parse_known_args (regs : List Registration) (tokens : List String) :
    Except ExcChain (List (String × PyValue)) :=
  match parseRegValues regs tokens with
  | Except.error m => Except.error (PropertyArgumentParser.error m)
  | Except.ok vals =>
    let missing := regs.filter (fun r => r.required && !(hasFlag tokens r.flag))
    if missing.isEmpty then Except.ok vals
    else
      Except.error (PropertyArgumentParser.error
        ("the following arguments are required: " ++
          String.intercalate ", " (missing.map (fun r => r.flag))))

/-- Embedding of `Arguments._assign_parsed_values`: every descriptor takes
the parsed value whose name matches its own. -/
def Arguments.assign_parsed_values (args : List Argument)
    (parsed : List (String × PyValue)) : List Argument :=
  args.map (fun a =>
    parsed.foldl (fun acc nv => if acc.name = some nv.1 then { acc with value := nv.2 } else acc) a)

/-- The constructed instance: the constructor-argument mapping plus the
post-construction setter assignments, in discovery order. -/
structure PyInstance where
  initArgs : List (String × PyValue)
  setCalls : List (String × PyValue)
deriving Repr

/-- Embedding of `Arguments._use_initializer`. -/
def Arguments.use_initializer (a : Argument) : Bool :=
  a.has_initializer && (a.fset || a.required)

/-- Embedding of `Arguments._get_initialization_params`. -/
def Arguments.get_initialization_params (args : List Argument) : List (String × PyValue) :=
  (args.filter (fun a => Arguments.use_initializer a)).map (fun a => (nameOrNone a.name, a.value))

/-- Embedding of `Arguments._set_optional_args`: the setter assignments
applied after construction, one per descriptor with a write accessor. -/
def Arguments.set_optional_args (args : List Argument) : List (String × PyValue) :=
  (args.filter (fun a => a.fset)).map (fun a => (nameOrNone a.name, a.value))

/-- Embedding of `Arguments._create_instance`. -/
def Arguments.create_instance (args : List Argument) : PyInstance :=
  { initArgs := Arguments.get_initialization_params args
    setCalls := Arguments.set_optional_args args }

/-- The error channel of the orchestrator: the `AttributeError` of the
configuration assertion, or the adapter's raised `ArgumentParseError`. -/
inductive OrchError where
  | config (message : String)
  | parse (e : ExcChain)
deriving Repr

/-- Embedding of `Arguments._parse_and_check_args`: reconcile and validate
(before any input is consumed), register every descriptor, parse the process
input, and assign the parsed values onto the descriptors. -/
def Arguments.parse_and_check_args (args : List Argument) (params : List Param)
    (tokens : List String) : Except OrchError (List Argument) :=
  match Arguments.check_required_args args params with
  | (_, some m) => Except.error (OrchError.config m)
  | (args1, none) =>
    match parse_known_args (args1.map PropertyArgumentParser.add_argument_details) tokens with
    | Except.error e => Except.error (OrchError.parse e)
    | Except.ok parsed => Except.ok (Arguments.assign_parsed_values args1 parsed)

/-- Embedding of `Arguments.parse`: parse the process input and materialize
the instance; the final descriptor state is returned alongside it. -/
def Arguments.parse (args : List Argument) (params : List Param)
    (tokens : List String) : Except OrchError (PyInstance × List Argument) :=
  match Arguments.parse_and_check_args args params tokens with
  | Except.error e => Except.error e
  | Except.ok args2 => Except.ok (Arguments.create_instance args2, args2)

/-- Modelled from the spec: the library's `format_help` renderer — a usage
block listing every registration's flag, display token, default and help
text. -/
def formatHelp (regs : List Registration) : String :=
  String.intercalate os_linesep
    (regs.map (fun r =>
      r.flag ++ " " ++ (r.metavar.getD "") ++ " default: " ++
        (match r.default with
         | PyValue.pynone => "None"
         | PyValue.pystr s => s
         | PyValue.pybool b => if b then "True" else "False"
         | PyValue.pyint n => toString n
         | PyValue.pylist _ => "list") ++ " " ++ (r.help.getD "")))

/-- Embedding of `Arguments.get_help`: registers every descriptor on a fresh
parser and renders the help text.  The ambient process input is passed
explicitly to make its non-consumption statable; the source never reads it
here, and no descriptor is written, so the descriptor state is returned
unchanged. -/
def Arguments.get_help (args : List Argument) (tokens : List String) :
    String × List Argument :=
  let parser := Arguments.add_arguments [] args
  (formatHelp parser, args)

/-- A descriptor with its two reconciliation flags cleared: reconciliation
writes nothing but `required` and `has_initializer`, which this erasure makes
statable. -/
def eraseFlags (a : Argument) : Argument :=
  { a with required := false, has_initializer := false }

lemma eraseFlags_set_required_flags (a : Argument) (p : Param) :
    eraseFlags (Arguments.set_required_flags a p) = eraseFlags a := rfl

lemma set_required_flags_name (a : Argument) (p : Param) :
    (Arguments.set_required_flags a p).name = a.name := rfl

lemma set_required_flags_default (a : Argument) (p : Param) :
    (Arguments.set_required_flags a p).default = a.default := rfl

lemma set_required_flags_fset (a : Argument) (p : Param) :
    (Arguments.set_required_flags a p).fset = a.fset := rfl

lemma eraseFlags_name {x y : Argument} (h : eraseFlags x = eraseFlags y) :
    x.name = y.name := by
  have h2 : (eraseFlags x).name = (eraseFlags y).name := congrArg Argument.name h
  exact h2

lemma eraseFlags_default {x y : Argument} (h : eraseFlags x = eraseFlags y) :
    x.default = y.default := by
  have h2 : (eraseFlags x).default = (eraseFlags y).default := congrArg Argument.default h
  exact h2

lemma eraseFlags_fset {x y : Argument} (h : eraseFlags x = eraseFlags y) :
    x.fset = y.fset := by
  have h2 : (eraseFlags x).fset = (eraseFlags y).fset := congrArg Argument.fset h
  exact h2

lemma set_required_flags_congr {x y : Argument} (h : eraseFlags x = eraseFlags y)
    (p : Param) :
    Arguments.set_required_flags x p = Arguments.set_required_flags y p := by
  cases x; cases y
  simp only [eraseFlags, Argument.mk.injEq] at h
  simp only [Arguments.set_required_flags, Argument.mk.injEq]
  simp_all

lemma set_required_flags_self {a : Argument} (p : Param)
    (h1 : a.has_initializer = true)
    (h2 : a.required = (Arguments.has_required_initializer p && a.default.is_none)) :
    Arguments.set_required_flags a p = a := by
  cases a
  simp only [Arguments.set_required_flags, Argument.mk.injEq]
  simp_all

lemma mark_arg_fst_erase (ps : List Param) : ∀ a : Argument,
    eraseFlags (Arguments.mark_arg a ps).1 = eraseFlags a := by
  induction ps with
  | nil => intro a; rfl
  | cons p ps ih =>
    intro a
    by_cases hn : a.name = some p.name
    · cases hA : Arguments.assert_argument_can_be_set (Arguments.set_required_flags a p) with
      | some m =>
        simp only [Arguments.mark_arg, if_pos hn, Arguments.set_required_arg, hA]
        exact eraseFlags_set_required_flags a p
      | none =>
        simp only [Arguments.mark_arg, if_pos hn, Arguments.set_required_arg, hA]
        rw [ih]
        exact eraseFlags_set_required_flags a p
    · simp only [Arguments.mark_arg, if_neg hn]
      exact ih a

lemma mark_arg_rerun (ps : List Param) : ∀ (a a' : Argument) (r : Option String),
    Arguments.mark_arg a ps = (a', r) → Arguments.mark_arg a' ps = (a', r) := by
  induction ps with
  | nil =>
    intro a a' r h
    simp only [Arguments.mark_arg, Prod.mk.injEq] at h
    obtain ⟨h1, h2⟩ := h
    subst h1; subst h2
    rfl
  | cons p ps ih =>
    intro a a' r h
    by_cases hn : a.name = some p.name
    · cases hA : Arguments.assert_argument_can_be_set (Arguments.set_required_flags a p) with
      | some m =>
        simp only [Arguments.mark_arg, if_pos hn, Arguments.set_required_arg, hA,
          Prod.mk.injEq] at h
        obtain ⟨h1, h2⟩ := h
        subst h1; subst h2
        have hname : (Arguments.set_required_flags a p).name = some p.name := by
          rw [set_required_flags_name]; exact hn
        have hself : Arguments.set_required_flags (Arguments.set_required_flags a p) p
            = Arguments.set_required_flags a p :=
          set_required_flags_self p rfl rfl
        simp only [Arguments.mark_arg, if_pos hname, Arguments.set_required_arg, hself, hA]
      | none =>
        simp only [Arguments.mark_arg, if_pos hn, Arguments.set_required_arg, hA] at h
        have hErase : eraseFlags a' = eraseFlags a := by
          have e1 : eraseFlags (Arguments.mark_arg (Arguments.set_required_flags a p) ps).1
              = eraseFlags (Arguments.set_required_flags a p) :=
            mark_arg_fst_erase ps (Arguments.set_required_flags a p)
          rw [h] at e1
          rw [e1]
          exact eraseFlags_set_required_flags a p
        have hname : a'.name = some p.name := by rw [eraseFlags_name hErase]; exact hn
        have hcongr : Arguments.set_required_flags a' p = Arguments.set_required_flags a p :=
          set_required_flags_congr hErase p
        simp only [Arguments.mark_arg, if_pos hname, Arguments.set_required_arg, hcongr, hA]
        exact h
    · simp only [Arguments.mark_arg, if_neg hn] at h
      have hErase : eraseFlags a' = eraseFlags a := by
        have e1 : eraseFlags (Arguments.mark_arg a ps).1 = eraseFlags a :=
          mark_arg_fst_erase ps a
        rw [h] at e1
        exact e1
      have hname : ¬ a'.name = some p.name := by rw [eraseFlags_name hErase]; exact hn
      simp only [Arguments.mark_arg, if_neg hname]
      exact ih a a' r h

lemma mark_required_args_rerun (ps : List Param) : ∀ (as as' : List Argument) (r : Option String),
    Arguments.mark_required_args as ps = (as', r) →
    Arguments.mark_required_args as' ps = (as', r) := by
  intro as
  induction as with
  | nil =>
    intro as' r h
    simp only [Arguments.mark_required_args, Prod.mk.injEq] at h
    obtain ⟨h1, h2⟩ := h
    subst h1; subst h2
    rfl
  | cons a as ih =>
    intro as' r h
    cases hM : Arguments.mark_arg a ps with
    | mk a1 e1 =>
      cases e1 with
      | some m =>
        rw [Arguments.mark_required_args, hM] at h
        simp only [Prod.mk.injEq] at h
        obtain ⟨h1, h2⟩ := h
        subst h1; subst h2
        have hM' : Arguments.mark_arg a1 ps = (a1, some m) := mark_arg_rerun ps a a1 (some m) hM
        rw [Arguments.mark_required_args, hM']
      | none =>
        rw [Arguments.mark_required_args, hM] at h
        simp only [Prod.mk.injEq] at h
        obtain ⟨h1, h2⟩ := h
        have hM' : Arguments.mark_arg a1 ps = (a1, none) := mark_arg_rerun ps a a1 none hM
        have hRest : Arguments.mark_required_args (Arguments.mark_required_args as ps).1 ps
            = ((Arguments.mark_required_args as ps).1, (Arguments.mark_required_args as ps).2) :=
          ih (Arguments.mark_required_args as ps).1 (Arguments.mark_required_args as ps).2 rfl
        subst h1; subst h2
        rw [Arguments.mark_required_args, hM', hRest]

/-- C3 — reconciliation is idempotent: re-running `_check_required_args` on
the descriptor state a first run produced (against the same constructor
parameters) returns exactly that state, including the same raised
configuration error if any. -/
theorem c3_reconcile_idempotent (args : List Argument) (params : List Param) :
    Arguments.check_required_args (Arguments.check_required_args args params).1 params
      = Arguments.check_required_args args params := by
  unfold Arguments.check_required_args
  exact mark_required_args_rerun (Arguments.get_required_initialization_params params)
    args (Arguments.mark_required_args args
      (Arguments.get_required_initialization_params params)).1
    (Arguments.mark_required_args args
      (Arguments.get_required_initialization_params params)).2 rfl

lemma mark_arg_no_match (ps : List Param) : ∀ a : Argument,
    (∀ p ∈ ps, ¬ a.name = some p.name) → Arguments.mark_arg a ps = (a, none) := by
  induction ps with
  | nil => intro a _; rfl
  | cons p ps ih =>
    intro a h
    have hn : ¬ a.name = some p.name := h p (List.mem_cons_self p ps)
    simp only [Arguments.mark_arg, if_neg hn]
    exact ih a (fun q hq => h q (List.mem_cons_of_mem p hq))

/-- The state every reconciled (matched) descriptor reaches and keeps: the
initializer binding is set and `required` tracks the default being unset. -/
def MarkedInv (a : Argument) : Prop :=
  a.has_initializer = true ∧ a.required = a.default.is_none

lemma set_required_flags_marked {p : Param} (hp : p.hasDefault = false) (a : Argument) :
    MarkedInv (Arguments.set_required_flags a p) := by
  constructor
  · rfl
  · show (Arguments.has_required_initializer p && a.default.is_none) = a.default.is_none
    simp [Arguments.has_required_initializer, hp]

lemma mark_arg_preserves_marked (ps : List Param) :
    (∀ p ∈ ps, p.hasDefault = false) →
    ∀ a : Argument, MarkedInv a → MarkedInv (Arguments.mark_arg a ps).1 := by
  induction ps with
  | nil => intro _ a h; exact h
  | cons p ps ih =>
    intro hps a h
    have hp : p.hasDefault = false := hps p (List.mem_cons_self p ps)
    have hps2 : ∀ q ∈ ps, q.hasDefault = false := fun q hq => hps q (List.mem_cons_of_mem p hq)
    by_cases hn : a.name = some p.name
    · cases hA : Arguments.assert_argument_can_be_set (Arguments.set_required_flags a p) with
      | some m =>
        simp only [Arguments.mark_arg, if_pos hn, Arguments.set_required_arg, hA]
        exact set_required_flags_marked hp a
      | none =>
        simp only [Arguments.mark_arg, if_pos hn, Arguments.set_required_arg, hA]
        exact ih hps2 (Arguments.set_required_flags a p) (set_required_flags_marked hp a)
    · simp only [Arguments.mark_arg, if_neg hn]
      exact ih hps2 a h

lemma mark_arg_matched (ps : List Param) :
    (∀ p ∈ ps, p.hasDefault = false) →
    ∀ a a' : Argument, Arguments.mark_arg a ps = (a', none) →
    (∃ p ∈ ps, a.name = some p.name) →
    a'.has_initializer = true ∧ a'.required = a.default.is_none := by
  induction ps with
  | nil =>
    intro _ a a' _ hex
    rcases hex with ⟨p, hp, _⟩
    exact absurd hp (List.not_mem_nil p)
  | cons p ps ih =>
    intro hps a a' h hex
    have hp : p.hasDefault = false := hps p (List.mem_cons_self p ps)
    have hps2 : ∀ q ∈ ps, q.hasDefault = false := fun q hq => hps q (List.mem_cons_of_mem p hq)
    by_cases hn : a.name = some p.name
    · cases hA : Arguments.assert_argument_can_be_set (Arguments.set_required_flags a p) with
      | some m =>
        simp only [Arguments.mark_arg, if_pos hn, Arguments.set_required_arg, hA,
          Prod.mk.injEq] at h
        exact absurd h.2 (by simp)
      | none =>
        simp only [Arguments.mark_arg, if_pos hn, Arguments.set_required_arg, hA] at h
        have hM1 : MarkedInv (Arguments.set_required_flags a p) := set_required_flags_marked hp a
        have hM2 := mark_arg_preserves_marked ps hps2 (Arguments.set_required_flags a p) hM1
        rw [h] at hM2
        have hErase : eraseFlags a' = eraseFlags a := by
          have e1 := mark_arg_fst_erase ps (Arguments.set_required_flags a p)
          rw [h] at e1
          rw [e1]
          exact eraseFlags_set_required_flags a p
        refine ⟨hM2.1, ?_⟩
        rw [hM2.2, eraseFlags_default hErase]
    · simp only [Arguments.mark_arg, if_neg hn] at h
      rcases hex with ⟨q, hq, hqn⟩
      rcases List.mem_cons.mp hq with hqp | hq2
      · subst hqp; exact absurd hqn hn
      · exact ih hps2 a a' h ⟨q, hq2, hqn⟩

lemma mark_required_args_ok_forall2 (ps : List Param) : ∀ (as as' : List Argument),
    Arguments.mark_required_args as ps = (as', none) →
    List.Forall₂ (fun a a' => Arguments.mark_arg a ps = (a', none)) as as' := by
  intro as
  induction as with
  | nil =>
    intro as' h
    simp only [Arguments.mark_required_args, Prod.mk.injEq] at h
    obtain ⟨h1, _⟩ := h
    subst h1
    exact List.Forall₂.nil
  | cons a as ih =>
    intro as' h
    cases hM : Arguments.mark_arg a ps with
    | mk a1 e1 =>
      cases e1 with
      | some m =>
        rw [Arguments.mark_required_args, hM] at h
        simp only [Prod.mk.injEq] at h
        exact absurd h.2 (by simp)
      | none =>
        rw [Arguments.mark_required_args, hM] at h
        simp only [Prod.mk.injEq] at h
        obtain ⟨h1, h2⟩ := h
        subst h1
        exact List.Forall₂.cons hM (ih (Arguments.mark_required_args as ps).1 (by rw [← h2]))

lemma required_init_params_mem (params : List Param) (p : Param) :
    p ∈ Arguments.get_required_initialization_params params ↔
      p ∈ params ∧ p.hasDefault = false := by
  simp [Arguments.get_required_initialization_params, Arguments.has_required_initializer,
    List.mem_filter, Bool.not_eq_true']

/-- C4 — after a successful reconciliation, every descriptor whose name
matches some constructor parameter lacking a default has
`has_initializer = true` and `required` equal to its default value being
unset, while every descriptor matching no such parameter is unchanged. -/
theorem c4_reconcile_flags (args : List Argument) (params : List Param)
    (args1 : List Argument)
    (h : Arguments.check_required_args args params = (args1, none)) :
    List.Forall₂ (fun a a' =>
      ((∃ p ∈ params, p.hasDefault = false ∧ a.name = some p.name) →
        a'.has_initializer = true ∧ a'.required = a.default.is_none) ∧
      ((∀ p ∈ params, p.hasDefault = false → ¬ a.name = some p.name) → a' = a))
      args args1 := by
  unfold Arguments.check_required_args at h
  have hps : ∀ p ∈ Arguments.get_required_initialization_params params, p.hasDefault = false :=
    fun p hp => ((required_init_params_mem params p).mp hp).2
  have hF := mark_required_args_ok_forall2
    (Arguments.get_required_initialization_params params) args args1 h
  refine List.Forall₂.imp ?_ hF
  intro a a' hR
  constructor
  · rintro ⟨p, hp, hpd, hpn⟩
    exact mark_arg_matched (Arguments.get_required_initialization_params params) hps a a' hR
      ⟨p, (required_init_params_mem params p).mpr ⟨hp, hpd⟩, hpn⟩
  · intro hno
    have hnone := mark_arg_no_match (Arguments.get_required_initialization_params params) a
      (fun q hq =>
        hno q ((required_init_params_mem params q).mp hq).1
          ((required_init_params_mem params q).mp hq).2)
    rw [hnone] at hR
    exact (Prod.mk.injEq .. ▸ hR).1.symm

lemma assert_some {a : Argument} {m : String}
    (h : Arguments.assert_argument_can_be_set a = some m) :
    a.fset = false ∧ a.required = false ∧ m = Arguments.assert_error_message a.name := by
  unfold Arguments.assert_argument_can_be_set at h
  by_cases hc : (a.fset || a.required) = true
  · rw [if_pos hc] at h
    exact absurd h (by simp)
  · have hcf : (a.fset || a.required) = false := by
      cases hb : (a.fset || a.required)
      · rfl
      · exact absurd hb hc
    rw [if_neg hc] at h
    injection h with h2
    rcases Bool.or_eq_false_iff.mp hcf with ⟨h3, h4⟩
    exact ⟨h3, h4, h2.symm⟩

lemma mark_arg_error_of_violation (ps : List Param) :
    (∀ p ∈ ps, p.hasDefault = false) →
    ∀ a : Argument, a.fset = false → a.default.is_none = false →
    (∃ p ∈ ps, a.name = some p.name) →
    ∃ a1, Arguments.mark_arg a ps = (a1, some (Arguments.assert_error_message a.name)) := by
  induction ps with
  | nil =>
    intro _ a _ _ hex
    rcases hex with ⟨p, hp, _⟩
    exact absurd hp (List.not_mem_nil p)
  | cons p ps ih =>
    intro hps a hf hd hex
    have hp : p.hasDefault = false := hps p (List.mem_cons_self p ps)
    have hps2 : ∀ q ∈ ps, q.hasDefault = false := fun q hq => hps q (List.mem_cons_of_mem p hq)
    by_cases hn : a.name = some p.name
    · have hcond : ((Arguments.set_required_flags a p).fset
          || (Arguments.set_required_flags a p).required) = false := by
        show (a.fset || (Arguments.has_required_initializer p && a.default.is_none)) = false
        rw [hf, Arguments.has_required_initializer, hp, hd]
        rfl
      have hA : Arguments.assert_argument_can_be_set (Arguments.set_required_flags a p)
          = some (Arguments.assert_error_message a.name) := by
        unfold Arguments.assert_argument_can_be_set
        rw [if_neg (by rw [hcond]; simp), set_required_flags_name]
      refine ⟨Arguments.set_required_flags a p, ?_⟩
      simp only [Arguments.mark_arg, if_pos hn, Arguments.set_required_arg, hA]
    · rcases hex with ⟨q, hq, hqn⟩
      rcases List.mem_cons.mp hq with hqp | hq2
      · subst hqp; exact absurd hqn hn
      · obtain ⟨a1, h1⟩ := ih hps2 a hf hd ⟨q, hq2, hqn⟩
        refine ⟨a1, ?_⟩
        simp only [Arguments.mark_arg, if_neg hn]
        exact h1

lemma mark_arg_error_spec (ps : List Param) :
    (∀ p ∈ ps, p.hasDefault = false) →
    ∀ (a a1 : Argument) (m : String), Arguments.mark_arg a ps = (a1, some m) →
    a.fset = false ∧ a.default.is_none = false ∧
      m = Arguments.assert_error_message a.name := by
  induction ps with
  | nil =>
    intro _ a a1 m h
    simp only [Arguments.mark_arg, Prod.mk.injEq] at h
    exact absurd h.2 (by simp)
  | cons p ps ih =>
    intro hps a a1 m h
    have hp : p.hasDefault = false := hps p (List.mem_cons_self p ps)
    have hps2 : ∀ q ∈ ps, q.hasDefault = false := fun q hq => hps q (List.mem_cons_of_mem p hq)
    by_cases hn : a.name = some p.name
    · cases hA : Arguments.assert_argument_can_be_set (Arguments.set_required_flags a p) with
      | some m2 =>
        simp only [Arguments.mark_arg, if_pos hn, Arguments.set_required_arg, hA,
          Prod.mk.injEq] at h
        obtain ⟨_, h2⟩ := h
        injection h2 with h3
        obtain ⟨hc1, hc2, hc3⟩ := assert_some hA
        have hfs : a.fset = false := by rw [← set_required_flags_fset a p]; exact hc1
        have hdn : a.default.is_none = false := by
          have : (Arguments.has_required_initializer p && a.default.is_none) = false := hc2
          rw [Arguments.has_required_initializer, hp] at this
          simpa using this
        refine ⟨hfs, hdn, ?_⟩
        rw [← h3, hc3, set_required_flags_name]
      | none =>
        simp only [Arguments.mark_arg, if_pos hn, Arguments.set_required_arg, hA] at h
        obtain ⟨hf2, hd2, hm2⟩ := ih hps2 (Arguments.set_required_flags a p) a1 m h
        refine ⟨?_, ?_, ?_⟩
        · rw [← set_required_flags_fset a p]; exact hf2
        · rw [← set_required_flags_default a p]; exact hd2
        · rw [hm2, set_required_flags_name]
    · simp only [Arguments.mark_arg, if_neg hn] at h
      exact ih hps2 a a1 m h

lemma mark_required_args_error_spec (ps : List Param) :
    (∀ p ∈ ps, p.hasDefault = false) →
    ∀ (as as1 : List Argument) (m : String),
      Arguments.mark_required_args as ps = (as1, some m) →
      ∃ a ∈ as, a.fset = false ∧ a.default.is_none = false ∧
        m = Arguments.assert_error_message a.name := by
  intro hps as
  induction as with
  | nil =>
    intro as1 m h
    simp only [Arguments.mark_required_args, Prod.mk.injEq] at h
    exact absurd h.2 (by simp)
  | cons a as ih =>
    intro as1 m h
    cases hM : Arguments.mark_arg a ps with
    | mk a1 e1 =>
      cases e1 with
      | some m2 =>
        rw [Arguments.mark_required_args, hM] at h
        simp only [Prod.mk.injEq] at h
        obtain ⟨_, h2⟩ := h
        injection h2 with h3
        obtain ⟨hf, hd, hm⟩ := mark_arg_error_spec ps hps a a1 m2 hM
        exact ⟨a, List.mem_cons_self a as, hf, hd, h3 ▸ hm⟩
      | none =>
        rw [Arguments.mark_required_args, hM] at h
        simp only [Prod.mk.injEq] at h
        obtain ⟨_, h2⟩ := h
        obtain ⟨a2, ha2, hrest⟩ := ih (Arguments.mark_required_args as ps).1 m (by rw [← h2])
        exact ⟨a2, List.mem_cons_of_mem a ha2, hrest⟩

lemma mark_required_args_error_exists (ps : List Param) :
    (∀ p ∈ ps, p.hasDefault = false) →
    ∀ as : List Argument,
      (∃ a ∈ as, a.fset = false ∧ a.default.is_none = false ∧
        ∃ p ∈ ps, a.name = some p.name) →
      ∃ m, (Arguments.mark_required_args as ps).2 = some m := by
  intro hps as
  induction as with
  | nil =>
    intro hex
    rcases hex with ⟨a, ha, _⟩
    exact absurd ha (List.not_mem_nil a)
  | cons a as ih =>
    intro hex
    cases hM : Arguments.mark_arg a ps with
    | mk a1 e1 =>
      cases e1 with
      | some m2 =>
        refine ⟨m2, ?_⟩
        rw [Arguments.mark_required_args, hM]
      | none =>
        rcases hex with ⟨a2, ha2, hf2, hd2, hex2⟩
        rcases List.mem_cons.mp ha2 with haa | ha3
        · subst haa
          obtain ⟨a3, h3⟩ := mark_arg_error_of_violation ps hps a2 hf2 hd2 hex2
          rw [h3] at hM
          exact absurd (Prod.mk.injEq .. ▸ hM).2 (by simp)
        · obtain ⟨m3, h3⟩ := ih ⟨a2, ha3, hf2, hd2, hex2⟩
          refine ⟨m3, ?_⟩
          rw [Arguments.mark_required_args, hM]
          exact h3

/-- C2, counterexample — the claim asserts that a declaring type holding a
descriptor with no write accessor and `required == false` makes both
`parse()` and `getHelp()` fail with a configuration error.  For the concrete
type whose single descriptor `foo` has no setter, `required = false` and a
set default, and whose constructor takes no parameters, `parse()` succeeds
and constructs an instance (and `get_help`, whose source path contains no
validation at all, has no failure channel in the embedding): no
configuration error is raised. -/
theorem c2_claim_counterexample :
    ∃ v, Arguments.parse
      [{ name := some "foo", fset := false, default := PyValue.pystr "x",
         value := PyValue.pystr "x", type := some PyType.str,
         action := some "store", metavar := some "str", help := some "h" }]
      [] [] = Except.ok v :=
  ⟨_, rfl⟩

/-- C2, amended — only `parse()` validates the writability invariant, and
only for descriptors whose name matches a constructor parameter without a
default: when some such descriptor has no write accessor and a set default
(so that reconciliation leaves `required = false`), `parse()` fails with the
configuration `AttributeError` naming a violating attribute, and it does so
for every process input, i.e. before any input is consumed.  `getHelp()`
performs no such validation. -/
theorem c2_parse_config_error (args : List Argument) (params : List Param)
    (h : ∃ a ∈ args, a.fset = false ∧ a.default.is_none = false ∧
      ∃ p ∈ params, p.hasDefault = false ∧ a.name = some p.name)
    (tokens : List String) :
    ∃ a ∈ args, a.fset = false ∧ a.default.is_none = false ∧
      Arguments.parse args params tokens
        = Except.error (OrchError.config (Arguments.assert_error_message a.name)) := by
  have hps : ∀ p ∈ Arguments.get_required_initialization_params params, p.hasDefault = false :=
    fun p hp => ((required_init_params_mem params p).mp hp).2
  obtain ⟨a, ha, hf, hd, p, hp, hpd, hpn⟩ := h
  obtain ⟨m, hm⟩ := mark_required_args_error_exists
    (Arguments.get_required_initialization_params params) hps args
    ⟨a, ha, hf, hd, p, (required_init_params_mem params p).mpr ⟨hp, hpd⟩, hpn⟩
  obtain ⟨a2, ha2, hf2, hd2, hm2⟩ := mark_required_args_error_spec
    (Arguments.get_required_initialization_params params) hps args
    (Arguments.mark_required_args args
      (Arguments.get_required_initialization_params params)).1 m (by rw [← hm])
  refine ⟨a2, ha2, hf2, hd2, ?_⟩
  rcases hchk : Arguments.check_required_args args params with ⟨as1, e1⟩
  have he1 : e1 = some m := by
    have h2 : (Arguments.check_required_args args params).2 = some m := hm
    rw [hchk] at h2
    exact h2
  subst he1
  simp only [Arguments.parse, Arguments.parse_and_check_args, hchk]
  rw [hm2]

lemma parse_known_args_error_shape (regs : List Registration) (tokens : List String)
    (e : ExcChain) (h : parse_known_args regs tokens = Except.error e) :
    ∃ m, e = argumentParseError m := by
  unfold parse_known_args at h
  cases hV : parseRegValues regs tokens with
  | error m =>
    rw [hV] at h
    injection h with h2
    exact ⟨m, h2.symm⟩
  | ok vals =>
    rw [hV] at h
    by_cases hE : (regs.filter (fun r => r.required && !(hasFlag tokens r.flag))).isEmpty
    · simp only [hE, if_true] at h
      exact absurd h (by simp)
    · simp only [hE, if_false] at h
      injection h with h2
      exact ⟨_, h2.symm⟩

lemma parse_known_args_missing_required (regs : List Registration) (tokens : List String)
    (r : Registration) (hr : r ∈ regs) (hreq : r.required = true)
    (habs : hasFlag tokens r.flag = false) :
    ∃ e, parse_known_args regs tokens = Except.error e := by
  unfold parse_known_args
  cases hV : parseRegValues regs tokens with
  | error m => exact ⟨PropertyArgumentParser.error m, rfl⟩
  | ok vals =>
    have hmem : r ∈ regs.filter (fun q => q.required && !(hasFlag tokens q.flag)) :=
      List.mem_filter.mpr ⟨hr, by rw [hreq, habs]; rfl⟩
    have hne : (regs.filter (fun q => q.required && !(hasFlag tokens q.flag))).isEmpty = false := by
      cases hE : (regs.filter (fun q => q.required && !(hasFlag tokens q.flag))).isEmpty
      · rfl
      · exact absurd (List.isEmpty_iff.mp hE ▸ hmem) (List.not_mem_nil r)
    simp only [hne, Bool.false_eq_true, if_false]
    exact ⟨_, rfl⟩

/-- Witness for the amended C2 at a concrete declaring type: descriptor
`foo` with no setter and a set default, matched by the defaultless
constructor parameter `foo`. -/
theorem c2_parse_config_error_witness :
    ∃ a ∈ [({ name := some "foo", fset := false, default := PyValue.pystr "x", value := PyValue.pystr "x" } : Argument)],
      a.fset = false ∧ a.default.is_none = false ∧
      Arguments.parse
        [{ name := some "foo", fset := false, default := PyValue.pystr "x", value := PyValue.pystr "x" }]
        [⟨"foo", false⟩] []
        = Except.error (OrchError.config (Arguments.assert_error_message a.name)) :=
  c2_parse_config_error _ _
    ⟨{ name := some "foo", fset := false, default := PyValue.pystr "x", value := PyValue.pystr "x" },
      List.mem_cons_self _ _, rfl, rfl, ⟨"foo", false⟩, List.mem_cons_self _ _, rfl, rfl⟩ []

/-- C5 — when a descriptor that reconciliation left `required` has its flag
absent from the process input, `parse()` fails with the domain
`ArgumentParseError` raised through the adapter: the result is an error, so
no instance is constructed and no write accessor is invoked. -/
theorem c5_missing_required_flag (args : List Argument) (params : List Param)
    (tokens : List String) (args1 : List Argument) (a : Argument)
    (h1 : Arguments.check_required_args args params = (args1, none))
    (h2 : a ∈ args1) (h3 : a.required = true)
    (h4 : hasFlag tokens (PropertyArgumentParser.flag ++ nameOrNone a.name) = false) :
    ∃ m, Arguments.parse args params tokens
      = Except.error (OrchError.parse (argumentParseError m)) := by
  have hreg : PropertyArgumentParser.add_argument_details a
      ∈ args1.map PropertyArgumentParser.add_argument_details :=
    List.mem_map_of_mem _ h2
  obtain ⟨e, he⟩ := parse_known_args_missing_required
    (args1.map PropertyArgumentParser.add_argument_details) tokens
    (PropertyArgumentParser.add_argument_details a) hreg h3 h4
  obtain ⟨m, hm⟩ := parse_known_args_error_shape _ tokens e he
  refine ⟨m, ?_⟩
  simp only [Arguments.parse, Arguments.parse_and_check_args, h1, he, hm]

/-- Witness for C5: a type with one defaultless constructor parameter
`name`, whose descriptor has no default, and an empty process input. -/
theorem c5_missing_required_flag_witness :
    ∃ m, Arguments.parse [{ name := some "name" }] [⟨"name", false⟩] []
      = Except.error (OrchError.parse (argumentParseError m)) :=
  c5_missing_required_flag [{ name := some "name" }] [⟨"name", false⟩] []
    [{ name := some "name", required := true, has_initializer := true }]
    { name := some "name", required := true, has_initializer := true }
    rfl (List.mem_cons_self _ _) rfl rfl

/-- C6 — the adapter's overridden `error` raises the domain
`ArgumentParseError` carrying the generated usage/error message in its
description (stored as the message prefixed with the `Argument error: `
marker, with no chained cause), and every internal failure of the wrapped
parse step surfaces as exactly such a domain error instead of a process
termination. -/
theorem c6_adapter_error_domain (message : String) (regs : List Registration)
    (tokens : List String) (e : ExcChain)
    (h : parse_known_args regs tokens = Except.error e) :
    PropertyArgumentParser.error message = argumentParseError message ∧
    (PropertyArgumentParser.error message).message = "Argument error: " ++ message ∧
    (PropertyArgumentParser.error message).inner_exception = none ∧
    ∃ m, e = argumentParseError m :=
  ⟨rfl, rfl, rfl, parse_known_args_error_shape regs tokens e h⟩

/-- Witness for C6 at a concrete failing parse: a required registration
whose flag is absent from an empty input. -/
theorem c6_adapter_error_domain_witness :
    PropertyArgumentParser.error "bad value" = argumentParseError "bad value" ∧
    (PropertyArgumentParser.error "bad value").message = "Argument error: " ++ "bad value" ∧
    (PropertyArgumentParser.error "bad value").inner_exception = none ∧
    ∃ m, argumentParseError "the following arguments are required: --name"
      = argumentParseError m :=
  c6_adapter_error_domain "bad value"
    [{ flag := "--name", name := "name", action := "store", default := PyValue.pynone,
       type := PyType.str, metavar := none, required := true, help := none }] []
    (argumentParseError "the following arguments are required: --name") rfl

/-- C1, code evaluation at the failing input — the claim (and the spec's
data model) says a single-parameter sequence declared type yields the
accumulate kind, but for a read accessor annotated `-> List[str]` the code
resolves the element type `str` first and then derives the action kind from
that resolved type, yielding the scalar kind `'store'`; the `'store_list'`
branch of `_get_action_type` is unreachable for ordinary `List[T]`
declarations.  The boolean-to-switch and other-to-scalar parts of the claim
hold. -/
theorem c1_action_kind_code_eval :
    (∃ a, Argument.getter {} { name := "tags", doc := some "the tags", annotation := some (PyType.listOf PyType.str) } = Except.ok a ∧ a.action = some "store" ∧ a.type = some PyType.str) ∧
    (∃ a, Argument.getter {} { name := "verbose", doc := some "the flag", annotation := some PyType.bool } = Except.ok a ∧ a.action = some "store_switch") ∧
    (∃ a, Argument.getter {} { name := "title", doc := some "the title", annotation := some PyType.str } = Except.ok a ∧ a.action = some "store") ∧
    "store" ≠ "store_list" :=
  ⟨⟨_, rfl, rfl, rfl⟩, ⟨_, rfl, rfl⟩, ⟨_, rfl, rfl⟩, by decide⟩

/-- C7, counterexample — on the chain A (message `a`) caused by B (empty
message) caused by C (message `c`), `flatten` is not the join of the string
form of every unwrapped error: `_iterables.flatten` filters out empty
strings, so B's string form is dropped. -/
theorem c7_flatten_counterexample :
    ExcChain.flattenMsg (ExcChain.mk "a" (some (ExcChain.mk "" (some (ExcChain.mk "c" none))))) = "c" ++ os_linesep ++ "a" ∧
    ExcChain.flattenMsg (ExcChain.mk "a" (some (ExcChain.mk "" (some (ExcChain.mk "c" none)))))
      ≠ String.intercalate os_linesep
          ((ExcChain.unwrap (ExcChain.mk "a" (some (ExcChain.mk "" (some (ExcChain.mk "c" none)))))).map ExcChain.toStr) :=
  ⟨rfl, by decide⟩

/-- C7, amended — for any error A caused by B caused by C (C having no
cause), `unwrap` returns `[C, B, A]` (deepest root cause first, the error
itself last), and `flatten` joins the string forms of the errors in that
same order with the platform line separator, omitting errors whose string
form is empty. -/
theorem c7_unwrap_flatten_amended (ma mb mc : String) :
    ExcChain.unwrap (ExcChain.mk ma (some (ExcChain.mk mb (some (ExcChain.mk mc none)))))
      = [ExcChain.mk mc none, ExcChain.mk mb (some (ExcChain.mk mc none)), ExcChain.mk ma (some (ExcChain.mk mb (some (ExcChain.mk mc none))))] ∧
    ExcChain.flattenMsg (ExcChain.mk ma (some (ExcChain.mk mb (some (ExcChain.mk mc none)))))
      = String.intercalate os_linesep ([mc, mb, ma].filter (fun s => s ≠ "")) :=
  ⟨rfl, rfl⟩

/-- C8 — the enumeration validator returns the declared member whose name
equals the token exactly, and for an undeclared token fails with the
`KeyError` whose message lists every declared member name in declaration
order, comma-joined. -/
theorem c8_enum_validation (typeName token : String) (members : List EnumMember) :
    (StrEnum.has_member members token = true →
      ∃ m, StrEnum.from_name typeName members token = Except.ok m ∧ m.name = token) ∧
    (StrEnum.has_member members token = false →
      StrEnum.from_name typeName members token
        = Except.error (StrEnum.key_error_message typeName members token)) := by
  constructor
  · intro h
    have hmem : token ∈ members.map (fun mb => mb.name) := by
      unfold StrEnum.has_member at h
      exact List.elem_iff.mp h
    obtain ⟨mb, hmb, hname⟩ := List.mem_map.mp hmem
    have hsome : (members.find? (fun q => q.name == token)).isSome :=
      List.find?_isSome.mpr ⟨mb, hmb, by simp [hname]⟩
    obtain ⟨m, hm⟩ := Option.isSome_iff_exists.mp hsome
    have hp := List.find?_some hm
    have hA : StrEnum.assert_member_is_defined typeName members token = none := by
      unfold StrEnum.assert_member_is_defined
      rw [if_pos h]
    refine ⟨m, ?_, by simpa using hp⟩
    simp only [StrEnum.from_name, hA, hm]
  · intro h
    have hA : StrEnum.assert_member_is_defined typeName members token
        = some (StrEnum.key_error_message typeName members token) := by
      unfold StrEnum.assert_member_is_defined
      rw [if_neg (by simp [h])]
    simp only [StrEnum.from_name, hA]

/-- Witness for C8 on the members RED, GREEN, BLUE: the token GREEN is
returned and the token YELLOW fails with the enumerating message. -/
theorem c8_enum_validation_witness :
    (∃ m, StrEnum.from_name "Color" [⟨"RED", "red"⟩, ⟨"GREEN", "green"⟩, ⟨"BLUE", "blue"⟩] "GREEN" = Except.ok m ∧ m.name = "GREEN") ∧
    StrEnum.from_name "Color" [⟨"RED", "red"⟩, ⟨"GREEN", "green"⟩, ⟨"BLUE", "blue"⟩] "YELLOW"
      = Except.error (StrEnum.key_error_message "Color" [⟨"RED", "red"⟩, ⟨"GREEN", "green"⟩, ⟨"BLUE", "blue"⟩] "YELLOW") :=
  ⟨(c8_enum_validation "Color" "GREEN" [⟨"RED", "red"⟩, ⟨"GREEN", "green"⟩, ⟨"BLUE", "blue"⟩]).1 rfl,
   (c8_enum_validation "Color" "YELLOW" [⟨"RED", "red"⟩, ⟨"GREEN", "green"⟩, ⟨"BLUE", "blue"⟩]).2 rfl⟩

/-- C9 — `get_help` has no descriptor side effects and consumes no process
input: the descriptor state after the call equals the state before it (every
field of every descriptor included), and the result is independent of the
process input. -/
theorem c9_get_help_frame (args : List Argument) (tokens tokens2 : List String) :
    (Arguments.get_help args tokens).2 = args ∧
    Arguments.get_help args tokens = Arguments.get_help args tokens2 :=
  ⟨rfl, rfl⟩

lemma getter_doc_missing (a : Argument) (g : Getter) (h1 : a.help = none)
    (h2 : g.doc = none) :
    Argument.getter a g = Except.error attribute_error_strip_none := by
  obtain ⟨gn, gd, ga⟩ := g
  have h2b : gd = none := h2
  subst h2b
  obtain ⟨f1, f2, f3, f4, f5, f6, f7, f8, f9, f10, f11, f12, f13, f14, f15, f16, f17⟩ := a
  have h1b : f1 = none := h1
  subst h1b
  rfl

/-- C10 — attaching a read accessor to a descriptor created with no help
override fails at attachment time (the help-derivation step strips a missing
value) whenever the accessor carries no docstring, and attachment succeeds
only when a docstring or a help override is present. -/
theorem c10_attach_doc_required (a : Argument) (g : Getter) :
    (a.help = none → g.doc = none →
      Argument.getter a g = Except.error attribute_error_strip_none) ∧
    (∀ a2, Argument.getter a g = Except.ok a2 → g.doc ≠ none ∨ a.help ≠ none) := by
  constructor
  · intro h1 h2
    exact getter_doc_missing a g h1 h2
  · intro a2 hok
    by_cases hg : g.doc = none
    · by_cases hh : a.help = none
      · rw [getter_doc_missing a g hh hg] at hok
        exact absurd hok (by simp)
      · exact Or.inr hh
    · exact Or.inl hg

/-- Witness for C10: a docstring-free accessor on a descriptor without help
override fails, while a documented accessor yields the disjunct. -/
theorem c10_attach_doc_required_witness :
    Argument.getter {} { name := "x", doc := none, annotation := none } = Except.error attribute_error_strip_none ∧
    (({ name := "y", doc := some "docstring", annotation := none } : Getter).doc ≠ none ∨ ({} : Argument).help ≠ none) :=
  ⟨(c10_attach_doc_required {} { name := "x", doc := none, annotation := none }).1 rfl rfl,
   (c10_attach_doc_required {} { name := "y", doc := some "docstring", annotation := none }).2 _ rfl⟩

/-- Witness for C4 at a concrete reconciliation: descriptor `alpha` (unset
default) is matched by the defaultless parameter `alpha` and becomes
required and initializer-bound; descriptor `beta` matches no defaultless
parameter and is unchanged. -/
theorem c4_reconcile_flags_witness :
    List.Forall₂ (fun (a a' : Argument) =>
      ((∃ p ∈ [(⟨"alpha", false⟩ : Param), ⟨"delta", true⟩], p.hasDefault = false ∧ a.name = some p.name) →
        a'.has_initializer = true ∧ a'.required = a.default.is_none) ∧
      ((∀ p ∈ [(⟨"alpha", false⟩ : Param), ⟨"delta", true⟩], p.hasDefault = false → ¬ a.name = some p.name) → a' = a))
      [{ name := some "alpha", fset := true }, { name := some "beta", fset := true, default := PyValue.pystr "b", value := PyValue.pystr "b" }]
      [{ name := some "alpha", fset := true, required := true, has_initializer := true }, { name := some "beta", fset := true, default := PyValue.pystr "b", value := PyValue.pystr "b" }] :=
  c4_reconcile_flags
    [{ name := some "alpha", fset := true }, { name := some "beta", fset := true, default := PyValue.pystr "b", value := PyValue.pystr "b" }]
    [⟨"alpha", false⟩, ⟨"delta", true⟩]
    [{ name := some "alpha", fset := true, required := true, has_initializer := true }, { name := some "beta", fset := true, default := PyValue.pystr "b", value := PyValue.pystr "b" }]
    rfl
